import Mathlib

/-!
Verification of the feed-assembly and state-reconciliation pipeline of the
readwise-audio worker (`src/unnamed/part_000`, the v3 worker that the spec
follows).  The JavaScript is shallowly embedded: the KV namespace is an
association list of entries, network calls (Readwise list/update/delete, the
Claude summarizer) are oracles passed in as values, and JS string/array
operations are reimplemented structurally so that every definition is
executable by the kernel.
-/

/-! ## JS string helpers -/

/-- Data-level append of strings, convenient for reasoning. -/
theorem str_append_data (a b : String) : (a ++ b).data = a.data ++ b.data := by
  cases a; cases b; rfl

/-- Strings with equal character data are equal. -/
theorem str_ext {a b : String} (h : a.data = b.data) : a = b := by
  cases a; cases b; exact congrArg String.mk h

/-- Left-cancellation for string append. -/
theorem str_append_left_cancel {p x y : String} (h : p ++ x = p ++ y) : x = y := by
  have h2 : p.data ++ x.data = p.data ++ y.data := by
    rw [← str_append_data, ← str_append_data, h]
  exact str_ext (List.append_cancel_left h2)

/-- Occurrence of `pat` as a contiguous sublist of `l`. -/
def listInfix (pat : List Char) : List Char → Bool
  | [] => pat.isPrefixOf ([] : List Char)
  | c :: l => pat.isPrefixOf (c :: l) || listInfix pat l

/-- JS `String.prototype.includes` (substring test). -/
def strIncludes (s pat : String) : Bool :=
  listInfix pat.data s.data

/-- JS `String.prototype.endsWith` (suffix test). -/
def strEndsWith (s pat : String) : Bool :=
  pat.data.isSuffixOf s.data

/-- Replace the first occurrence of `pat` by `rep` in a character list,
exactly as JS `String.prototype.replace` with a string pattern does. -/
def listReplaceFirst (pat rep : List Char) : List Char → List Char
  | [] => if pat.isPrefixOf ([] : List Char) then rep else []
  | c :: l =>
    if pat.isPrefixOf (c :: l) then rep ++ (c :: l).drop pat.length
    else c :: listReplaceFirst pat rep l

/-- JS `s.replace(pat, rep)` with a string pattern: only the first occurrence
of `pat` is replaced; `s` is returned unchanged when `pat` does not occur. -/
def replaceFirst (s pat rep : String) : String :=
  ⟨listReplaceFirst pat.data rep.data s.data⟩

/-- Stripping a prefix with `replaceFirst` recovers the remainder. -/
theorem replaceFirst_strip (p r : String) : replaceFirst (p ++ r) p "" = r := by
  apply str_ext
  show listReplaceFirst p.data "".data (p ++ r).data = r.data
  rw [str_append_data]
  cases hp : p.data with
  | nil => cases hr : r.data with
    | nil => simp [listReplaceFirst]
    | cons c l => simp [listReplaceFirst, List.isPrefixOf]
  | cons c l =>
    have : (c :: l) ++ r.data = c :: (l ++ r.data) := rfl
    rw [this]
    show listReplaceFirst (c :: l) [] (c :: (l ++ r.data)) = r.data
    have hpre : (c :: l).isPrefixOf (c :: (l ++ r.data)) = true := by
      rw [List.isPrefixOf_iff_prefix]
      exact ⟨r.data, by simp⟩
    simp [listReplaceFirst, hpre]

/-- JS truthiness of an optional string field: `undefined` and `""` are falsy. -/
def jsTruthy (o : Option String) : Bool :=
  match o with
  | none => false
  | some s => !(s == "")

/-- JS `x || d` on an optional string field. -/
def jsOr (o : Option String) (d : String) : String :=
  if jsTruthy o then o.getD "" else d

/-- JS `x || y` where both operands are optional strings. -/
def jsOrOpt (o fallback : Option String) : Option String :=
  if jsTruthy o then o else fallback

/-- Number of maximal whitespace runs in a character list; `prev` records
whether the previous character was whitespace. -/
def wsRuns (prev : Bool) : List Char → Nat
  | [] => 0
  | c :: rest =>
    if c.isWhitespace then
      (if prev then 0 else 1) + wsRuns true rest
    else wsRuns false rest

/-- Length of the array produced by JS `s.split(/\s+/)`: one more than the
number of maximal whitespace runs. -/
def jsSplitWsLen (s : String) : Nat := wsRuns false s.data + 1

/-- Hostname extraction of the WHATWG `URL` constructor, modelled for URL
shapes of the form `scheme://host[/...]` (no userinfo or normalization, which
never occur in this worker's inputs): split at the first `"://"`, then take
host characters up to a delimiter; inputs without `"://"`, or with an empty
scheme or host, fail like the constructor throwing. -/
def splitOnceAux (sep : List Char) : List Char → Option (List Char × List Char)
  | [] => if sep.isPrefixOf ([] : List Char) then some ([], []) else none
  | c :: l =>
    if sep.isPrefixOf (c :: l) then some ([], (c :: l).drop sep.length)
    else
      match splitOnceAux sep l with
      | some (pre, post) => some (c :: pre, post)
      | none => none

/-- Hostname of a URL string, `none` when the `URL` constructor would throw. -/
def parseHostname (s : String) : Option String :=
  match splitOnceAux "://".data s.data with
  | none => none
  | some (scheme, rest) =>
    if scheme = [] then none
    else
      let host := rest.takeWhile fun c => !(c == '/') && !(c == ':') && !(c == '?') && !(c == '#')
      if host = [] then none else some ⟨host⟩

/-! ## Data model -/

/-- A Readwise Reader document as consumed by the worker.  Optional fields
model JS properties that may be `undefined`; `saved_at` is the epoch value of
`new Date(doc.saved_at)`. -/
structure Article where
  id : String := ""
  title : Option String := none
  category : String := ""
  location : String := ""
  site_name : Option String := none
  source_url : Option String := none
  url : Option String := none
  content : Option String := none
  summary : Option String := none
  notes : Option String := none
  html : Option String := none
  text : Option String := none
  saved_at : Int := 0
deriving DecidableEq

/-- One entry of the Cloudflare KV namespace: key, value, and the
`expirationTtl` option it was written with. -/
structure KVEntry where
  key : String
  value : String
  ttl : Option Nat
deriving DecidableEq

/-- The KV namespace, newest entry first. -/
abbrev KV := List KVEntry

/-- Entry lookup (`KV.get` plus the entry's metadata). -/
def kvFind (kv : KV) (k : String) : Option KVEntry :=
  kv.find? fun e => e.key == k

/-- `env.KV.get(key)`: the stored value, `none` when absent. -/
def kvGet (kv : KV) (k : String) : Option String :=
  (kvFind kv k).map fun e => e.value

/-- `env.KV.put(key, value, {expirationTtl})`: overwrites any entry for `key`. -/
def kvPut (kv : KV) (k v : String) (ttl : Option Nat) : KV :=
  ⟨k, v, ttl⟩ :: kv.filter fun e => !(e.key == k)

/-- `env.KV.delete(key)`. -/
def kvDelete (kv : KV) (k : String) : KV :=
  kv.filter fun e => !(e.key == k)

/-- `env.KV.list({prefix})`: the names of the stored keys with that prefix. -/
def kvScan (kv : KV) (p : String) : List String :=
  ((kv.filter fun e => p.data.isPrefixOf e.key.data).map fun e => e.key)

/-! ## KV lemmas -/

theorem kvFind_put_self (kv : KV) (k v : String) (t : Option Nat) :
    kvFind (kvPut kv k v t) k = some ⟨k, v, t⟩ := by
  simp [kvFind, kvPut, List.find?]

theorem kvGet_put_self (kv : KV) (k v : String) (t : Option Nat) :
    kvGet (kvPut kv k v t) k = some v := by
  simp [kvGet, kvFind_put_self]

theorem kvFind_filter_ne {p : KVEntry → Bool} (kv : KV) (k : String)
    (hp : ∀ e : KVEntry, e.key = k → p e = true) :
    kvFind (kv.filter p) k = kvFind kv k := by
  induction kv with
  | nil => rfl
  | cons e rest ih =>
    rw [List.filter_cons]
    by_cases hk : e.key = k
    · rw [if_pos (hp e hk)]
      unfold kvFind
      rw [List.find?_cons_of_pos _ (by simp [hk]), List.find?_cons_of_pos _ (by simp [hk])]
    · by_cases hpe : p e = true
      · rw [if_pos hpe]
        unfold kvFind at ih ⊢
        rw [List.find?_cons_of_neg _ (by simp [hk]), List.find?_cons_of_neg _ (by simp [hk])]
        exact ih
      · rw [if_neg hpe]
        unfold kvFind at ih ⊢
        rw [List.find?_cons_of_neg _ (by simp [hk])]
        exact ih

theorem kvFind_put_ne (kv : KV) (k k' v : String) (t : Option Nat) (h : k' ≠ k) :
    kvFind (kvPut kv k v t) k' = kvFind kv k' := by
  unfold kvPut kvFind
  rw [List.find?_cons_of_neg _ (by simp; exact Ne.symm h)]
  exact kvFind_filter_ne kv k' fun e he => by simp [he]; exact h

theorem kvGet_put_ne (kv : KV) (k k' v : String) (t : Option Nat) (h : k' ≠ k) :
    kvGet (kvPut kv k v t) k' = kvGet kv k' := by
  simp [kvGet, kvFind_put_ne kv k k' v t h]

theorem kvFind_delete_self (kv : KV) (k : String) :
    kvFind (kvDelete kv k) k = none := by
  induction kv with
  | nil => rfl
  | cons e rest ih =>
    simp only [kvDelete] at ih ⊢
    rw [List.filter_cons]
    by_cases hk : e.key = k
    · rw [if_neg (by simp [hk])]
      exact ih
    · rw [if_pos (by simp [hk])]
      unfold kvFind at ih ⊢
      rw [List.find?_cons_of_neg _ (by simp [hk])]
      exact ih

theorem kvGet_delete_self (kv : KV) (k : String) :
    kvGet (kvDelete kv k) k = none := by
  simp [kvGet, kvFind_delete_self]

theorem kvFind_delete_ne (kv : KV) (k k' : String) (h : k' ≠ k) :
    kvFind (kvDelete kv k) k' = kvFind kv k' :=
  kvFind_filter_ne kv k' fun e he => by simp [he]; exact h

theorem kvGet_delete_ne (kv : KV) (k k' : String) (h : k' ≠ k) :
    kvGet (kvDelete kv k) k' = kvGet kv k' := by
  simp [kvGet, kvFind_delete_ne kv k k' h]

theorem kvGet_ne_none_iff (kv : KV) (k : String) :
    kvGet kv k ≠ none ↔ ∃ e ∈ kv, e.key = k := by
  constructor
  · intro h
    rcases Option.ne_none_iff_exists.mp h with ⟨v, hv⟩
    simp only [kvGet, kvFind] at hv
    rcases Option.map_eq_some'.mp hv.symm with ⟨e, he, _⟩
    exact ⟨e, List.mem_of_find?_eq_some he, by simpa using List.find?_some he⟩
  · rintro ⟨e, hmem, hkey⟩ hnone
    simp only [kvGet, kvFind, Option.map_eq_none'] at hnone
    have := List.find?_eq_none.mp hnone e hmem
    simp [hkey] at this

/-! ## Marker key arithmetic

The three KV namespaces used by the worker are `heard:<id>`, `later:<id>` and
`summary:<id>`; their keys start with distinct characters, so writes in one
namespace never alias another. -/

theorem key_head_ne {p q : String} (x y : String) {c d : Char}
    (hp : (p ++ x).data.head? = some c) (hq : (q ++ y).data.head? = some d)
    (hne : c ≠ d) : p ++ x ≠ q ++ y := by
  intro he
  rw [he] at hp
  rw [hp] at hq
  exact hne (Option.some.inj hq)

theorem summary_ne_later (x y : String) : ("summary:" ++ x) ≠ ("later:" ++ y) := by
  refine key_head_ne x y (c := 's') (d := 'l') ?_ ?_ (by decide)
  · rw [str_append_data]; rfl
  · rw [str_append_data]; rfl

theorem summary_ne_heard (x y : String) : ("summary:" ++ x) ≠ ("heard:" ++ y) := by
  refine key_head_ne x y (c := 's') (d := 'h') ?_ ?_ (by decide)
  · rw [str_append_data]; rfl
  · rw [str_append_data]; rfl

theorem later_ne_heard (x y : String) : ("later:" ++ x) ≠ ("heard:" ++ y) := by
  refine key_head_ne x y (c := 'l') (d := 'h') ?_ ?_ (by decide)
  · rw [str_append_data]; rfl
  · rw [str_append_data]; rfl

/-! ## Marker sets -/

/-- `getHeardIds`: ids of all stored `heard:*` markers
(`list({prefix:'heard:'})` followed by stripping the prefix). -/
def getHeardIds (kv : KV) : List String :=
  (kvScan kv "heard:").map fun k => replaceFirst k "heard:" ""

/-- `getLaterIds`: ids of all stored `later:*` markers. -/
def getLaterIds (kv : KV) : List String :=
  (kvScan kv "later:").map fun k => replaceFirst k "later:" ""

theorem mem_stripScan (kv : KV) (p id : String) :
    id ∈ (kvScan kv p).map (fun k => replaceFirst k p "") ↔
      ∃ e ∈ kv, e.key = p ++ id := by
  simp only [kvScan, List.map_map, List.mem_map, List.mem_filter, Function.comp]
  constructor
  · rintro ⟨e, ⟨hmem, hpre⟩, hstrip⟩
    rw [List.isPrefixOf_iff_prefix] at hpre
    rcases hpre with ⟨t, ht⟩
    have hkey : e.key = p ++ ⟨t⟩ := by
      apply str_ext
      rw [str_append_data, ← ht]
    refine ⟨e, hmem, ?_⟩
    rw [hkey] at hstrip ⊢
    rw [replaceFirst_strip] at hstrip
    rw [hstrip]
  · rintro ⟨e, hmem, hkey⟩
    refine ⟨e, ⟨hmem, ?_⟩, ?_⟩
    · rw [List.isPrefixOf_iff_prefix, hkey, str_append_data]
      exact ⟨id.data, rfl⟩
    · rw [hkey, replaceFirst_strip]

theorem getHeardIds_contains (kv : KV) (id : String) :
    ((getHeardIds kv).contains id = true) ↔ kvGet kv ("heard:" ++ id) ≠ none := by
  rw [List.contains, List.elem_iff, kvGet_ne_none_iff]
  exact mem_stripScan kv "heard:" id

theorem getLaterIds_contains (kv : KV) (id : String) :
    ((getLaterIds kv).contains id = true) ↔ kvGet kv ("later:" ++ id) ≠ none := by
  rw [List.contains, List.elem_iff, kvGet_ne_none_iff]
  exact mem_stripScan kv "later:" id

/-! ## Configuration (`part_000` top of file) -/

def MAX_ARTICLES : Nat := 50

def SUMMARY_CACHE_TTL : Nat := 60 * 60 * 24 * 30

/-! ## Helpers (`extractSource`) -/

/-- `extractSource(article)`: site name when truthy, else the hostname of a
parsable `source_url` with `.replace('www.', '')` applied, else the fallback
label. -/
def extractSource (a : Article) : String :=
  if jsTruthy a.site_name then a.site_name.getD ""
  else if jsTruthy a.source_url then
    match parseHostname (a.source_url.getD "") with
    | some h => replaceFirst h "www." ""
    | none => "Unknown source"
  else "Unknown source"

/-- Claim C8's reading of the source label, following the spec's words: the
site name when the field is present, else the hostname of a parsable source
URL with a leading `www.` stripped, else the fallback label.  A second
definition kept for comparison with `extractSource`. -/
def specSourceLabel (a : Article) : String :=
  match a.site_name with
  | some s => s
  | none =>
    match a.source_url with
    | some u =>
      match parseHostname u with
      | some h => if "www.".data.isPrefixOf h.data then ⟨h.data.drop 4⟩ else h
      | none => "Unknown source"
    | none => "Unknown source"

/-- URL part of the amended source-label reading: a present non-empty source
URL contributes its hostname with the first `www.` occurrence removed. -/
def specSourceUrlLabelAmended (a : Article) : String :=
  match a.source_url with
  | some u =>
    if u = "" then "Unknown source"
    else
      match parseHostname u with
      | some h => replaceFirst h "www." ""
      | none => "Unknown source"
  | none => "Unknown source"

/-- The amended reading of the source label: JS truthiness decides presence,
and the first occurrence of `www.` anywhere in the hostname is removed. -/
def specSourceLabelAmended (a : Article) : String :=
  match a.site_name with
  | some s => if s = "" then specSourceUrlLabelAmended a else s
  | none => specSourceUrlLabelAmended a

/-! ## Request router (`fetch` in the default export) -/

/-- The handler a request is dispatched to. -/
inductive Route where
  | options
  | html
  | feed
  | tts
  | archive
  | delete
  | later
  | manifest
  | notFound
deriving DecidableEq

/-- The routing logic of the worker's `fetch` entry point, in source order:
OPTIONS preflight, static page, then substring matches for the API routes,
then the manifest, then 404. -/
def route (method path : String) : Route :=
  if method == "OPTIONS" then Route.options
  else if path == "/" || strEndsWith path "/index.html" then Route.html
  else if strIncludes path "/api/feed" then Route.feed
  else if strIncludes path "/api/tts" && method == "POST" then Route.tts
  else if strIncludes path "/api/archive" && method == "POST" then Route.archive
  else if strIncludes path "/api/delete" && method == "POST" then Route.delete
  else if strIncludes path "/api/later" && method == "POST" then Route.later
  else if path == "/manifest.json" then Route.manifest
  else Route.notFound

/-! ## Readwise client -/

/-- Whether an HTTP status is a success (`response.ok`). -/
def respOk (status : Nat) : Bool :=
  decide (200 ≤ status) && decide (status ≤ 299)

/-- `updateReadwiseDocument`: throws `Readwise update error: <status>` on a
non-success upstream response; the oracle `status` is the upstream reply. -/
def updateReadwiseDocument (status : Nat) : Except String Unit :=
  if respOk status then Except.ok ()
  else Except.error ("Readwise update error: " ++ toString status)

/-- `deleteReadwiseDocument`: a 404 is treated as success; any other
non-success status throws `Readwise delete error: <status>`. -/
def deleteReadwiseDocument (status : Nat) : Except String Bool :=
  if !respOk status && status ≠ 404 then
    Except.error ("Readwise delete error: " ++ toString status)
  else Except.ok true

/-- Location filter applied page by page in `fetchAllReadwiseArticles`. -/
def readwiseKeep (locationFilter : String) (doc : Article) : Bool :=
  if doc.category ≠ "article" then false
  else if doc.location = "archive" then false
  else if locationFilter = "feed" then doc.location == "new" || doc.location == "feed"
  else if locationFilter = "library" then doc.location == "later" || doc.location == "shortlist"
  else true

/-- Recency-descending comparison used by the final sort
(`(a, b) => new Date(b.saved_at) - new Date(a.saved_at)`). -/
def bySavedDesc (a b : Article) : Prop := b.saved_at ≤ a.saved_at

instance : DecidableRel bySavedDesc := fun a b =>
  inferInstanceAs (Decidable (b.saved_at ≤ a.saved_at))

instance : IsTotal Article bySavedDesc :=
  ⟨fun a b => le_total b.saved_at a.saved_at⟩

instance : IsTrans Article bySavedDesc :=
  ⟨fun _ _ _ h1 h2 => le_trans h2 h1⟩

/-- The pagination loop of `fetchAllReadwiseArticles`: `pages` is the sequence
of upstream result pages along the cursor chain; each page is filtered, the
loop stops when the article cap or the page cap (10) is reached or the cursor
chain ends. -/
def fetchLoop (lf : String) : List (List Article) → Nat → List Article → List Article
  | [], _, acc => acc
  | page :: rest, pageCount, acc =>
    let acc2 := acc ++ page.filter (readwiseKeep lf)
    if MAX_ARTICLES ≤ acc2.length ∨ 10 ≤ pageCount + 1 then acc2
    else fetchLoop lf rest (pageCount + 1) acc2

/-- `fetchAllReadwiseArticles`: paginate, filter, then sort by saved timestamp
descending (JS `Array.prototype.sort` is stable, and a stable sort under a
total preorder is unique, so insertion sort models it exactly). -/
def fetchAllReadwiseArticles (pages : List (List Article)) (lf : String) : List Article :=
  List.insertionSort bySavedDesc (fetchLoop lf pages 0 [])

/-! ## Summary cache (`getCachedOrSummarize`) -/

/-- The cache-miss path: invoke the summarizer oracle once; on success store
the text under `summary:<id>` with the cache TTL. -/
def summarizeStep (sum : Article → Except String String) (kv : KV) (a : Article) :
    Except String String × KV × Nat :=
  match sum a with
  | Except.error e => (Except.error e, kv, 1)
  | Except.ok s => (Except.ok s, kvPut kv ("summary:" ++ a.id) s (some SUMMARY_CACHE_TTL), 1)

/-- `getCachedOrSummarize`: return the cached value when truthy (the JS guard
is `if (cached)`, so an empty cached string is treated as a miss); otherwise
summarize and cache.  The final component counts summarizer invocations. -/
def getCachedOrSummarize (sum : Article → Except String String) (kv : KV) (a : Article) :
    Except String String × KV × Nat :=
  match kvGet kv ("summary:" ++ a.id) with
  | some c => if c = "" then summarizeStep sum kv a else (Except.ok c, kv, 0)
  | none => summarizeStep sum kv a

/-! ## Feed assembly (`handleFeed`) -/

/-- The response DTO pushed into `summaries` for each served article. -/
structure FeedItem where
  id : String
  title : String
  source : String
  summary : String
  content : String
  url : Option String
  readwise_url : String
  original_url : Option String
  word_count : Nat
  location : String
deriving DecidableEq

/-- The object literal pushed by `handleFeed` for one summarized article. -/
def mkFeedItem (a : Article) (summary : String) : FeedItem :=
  { id := a.id
    title := jsOr a.title "Untitled"
    source := extractSource a
    summary := summary
    content := jsOr a.content (jsOr a.html (jsOr a.text ""))
    url := a.url
    readwise_url := "https://readwise.io/reader/document/" ++ a.id
    original_url := jsOrOpt a.source_url a.url
    word_count := jsSplitWsLen (jsOr a.content "")
    location := a.location }

/-- The marker filter of `handleFeed` step 3: keep an article iff it is not
heard or is in the later list. -/
def feedKeep (heard later : List String) (a : Article) : Bool :=
  !(heard.contains a.id) || later.contains a.id

/-- The per-article loop of `handleFeed`: summarize via the cache; on success
push the item and consume a pending `later:` marker; on failure log and skip. -/
def feedLoop (sum : Article → Except String String) (laterIds : List String) :
    List Article → KV → List FeedItem → List FeedItem × KV
  | [], kv, acc => (acc, kv)
  | a :: rest, kv, acc =>
    match getCachedOrSummarize sum kv a with
    | (Except.ok s, kv1, _) =>
      let kv2 := if laterIds.contains a.id then kvDelete kv1 ("later:" ++ a.id) else kv1
      feedLoop sum laterIds rest kv2 (acc ++ [mkFeedItem a s])
    | (Except.error _, kv1, _) => feedLoop sum laterIds rest kv1 acc

/-- `url.searchParams.get('location') || 'all'`. -/
def locFilterOf (loc : Option String) : String := jsOr loc "all"

/-- The candidate list of one feed-assembly pass: upstream fetch filtered
against the heard/later marker sets. -/
def feedCandidates (pages : List (List Article)) (kv : KV) (lf : String) : List Article :=
  (fetchAllReadwiseArticles pages lf).filter (feedKeep (getHeardIds kv) (getLaterIds kv))

/-- The JSON body of a successful `handleFeed` response. -/
structure FeedResponse where
  status : Nat
  articles : List FeedItem
  total_available : Nat
  location : String
deriving DecidableEq

/-- `handleFeed`: assemble the feed for one request.  `pages` stands for the
upstream pages the Readwise client would fetch, `sum` for the summarizer; the
returned KV is the store after all side effects. -/
def handleFeed (sum : Article → Except String String) (pages : List (List Article))
    (kv : KV) (loc : Option String) : FeedResponse × KV :=
  let lf := locFilterOf loc
  let newArticles := feedCandidates pages kv lf
  let out := feedLoop sum (getLaterIds kv) (newArticles.take MAX_ARTICLES) kv []
  ({ status := 200
     articles := out.1
     total_available := newArticles.length
     location := lf }, out.2)

/-! ## Action handlers -/

/-- An observable side effect of an action handler, in execution order. -/
inductive Event where
  | kvPutE (k v : String) (ttl : Option Nat)
  | kvDeleteE (k : String)
  | upstreamPatch (id : String) (loc : String)
  | upstreamRemove (id : String)
deriving DecidableEq

/-- `handleArchive`: write the `heard:` marker (30-day TTL), then PATCH the
upstream document to `location: archive`; an upstream failure propagates as
the thrown error while the marker write stands.  The event list records the
order of the two effects. -/
def handleArchive (upStatus : Nat) (kv : KV) (id : String) (now : Nat) :
    (Except String Unit × KV) × List Event :=
  let key := "heard:" ++ id
  let kv1 := kvPut kv key (toString now) (some (60 * 60 * 24 * 30))
  let evs := [Event.kvPutE key (toString now) (some (60 * 60 * 24 * 30)),
              Event.upstreamPatch id "archive"]
  match updateReadwiseDocument upStatus with
  | Except.error e => ((Except.error e, kv1), evs)
  | Except.ok _ => ((Except.ok (), kv1), evs)

/-- `handleDelete`: write the `heard:` marker, then DELETE upstream (404
counts as success). -/
def handleDelete (upStatus : Nat) (kv : KV) (id : String) (now : Nat) :
    Except String Unit × KV :=
  let kv1 := kvPut kv ("heard:" ++ id) (toString now) (some (60 * 60 * 24 * 30))
  match deleteReadwiseDocument upStatus with
  | Except.error e => (Except.error e, kv1)
  | Except.ok _ => (Except.ok (), kv1)

/-- `handleLater`: write the `later:` marker (7-day TTL) and remove any
`heard:` marker; no upstream call is made. -/
def handleLater (kv : KV) (id : String) (now : Nat) : KV :=
  kvDelete (kvPut kv ("later:" ++ id) (toString now) (some (60 * 60 * 24 * 7))) ("heard:" ++ id)

/-! ## Claim C8 — source label derivation -/

/-- Concrete articles used across witnesses and counterexamples. -/
def artC8 : Article := { id := "c8", source_url := some "https://api.www.example.com/a" }

/-- Claim C8 is false as stated: for the source URL
`https://api.www.example.com/a` the code removes the first `www.` occurrence
anywhere in the hostname (yielding `api.example.com`), not only a leading
`www.` (which would leave `api.www.example.com`). -/
theorem extract_source_counterexample :
    extractSource artC8 = "api.example.com" ∧
    specSourceLabel artC8 = "api.www.example.com" ∧
    extractSource artC8 ≠ specSourceLabel artC8 := by
  refine ⟨by decide, by decide, by decide⟩

/-- Amended claim C8: the derived source label equals the article's site name
when it is present and non-empty; otherwise, for a present, non-empty source
URL that parses, it equals the hostname with the first occurrence of the
substring `www.` removed (coinciding with leading-`www.` stripping whenever
`www.` occurs only as a prefix); otherwise `Unknown source`.  The spec's
worked examples all hold. -/
theorem extract_source_amended :
    (∀ a : Article, extractSource a = specSourceLabelAmended a) ∧
    extractSource { id := "1", source_url := some "https://www.example.com/a" } = "example.com" ∧
    extractSource { id := "2", source_url := some "https://blog.example.com/a" } = "blog.example.com" ∧
    extractSource ({ id := "3" } : Article) = "Unknown source" ∧
    extractSource { id := "4", source_url := some "not-a-url" } = "Unknown source" ∧
    extractSource { id := "5", site_name := some "The Atlantic" } = "The Atlantic" := by
  refine ⟨fun a => ?_, by decide, by decide, by decide, by decide, by decide⟩
  unfold extractSource specSourceLabelAmended specSourceUrlLabelAmended jsTruthy
  cases hsn : a.site_name with
  | some s =>
    by_cases hs : s = ""
    · subst hs
      simp only [beq_self_eq_true, Bool.not_true, if_false, if_pos rfl]
      cases hsu : a.source_url with
      | some u =>
        by_cases hu : u = ""
        · subst hu; simp
        · simp [hu]
      | none => simp
    · simp [hs, Option.getD]
  | none =>
    simp only [Bool.false_eq_true, if_false]
    cases hsu : a.source_url with
    | some u =>
      by_cases hu : u = ""
      · subst hu; simp
      · simp [hu]
    | none => simp

/-! ## Claim C10 — request routing -/

/-- Claim C10 is false as stated: `/api/feed/index.html` contains the
substring `/api/feed` and the method is not OPTIONS, yet the request is
served the static HTML page because the static-page check
(`path.endsWith('/index.html')`) precedes the feed check. -/
theorem router_counterexample :
    strIncludes "/api/feed/index.html" "/api/feed" = true ∧
    route "GET" "/api/feed/index.html" = Route.html ∧
    route "GET" "/api/feed/index.html" ≠ Route.feed := by
  refine ⟨by decide, by decide, by decide⟩

/-- Amended claim C10: routes are tried in source order, so the feed handler
receives every non-OPTIONS request whose path contains `/api/feed` except
those captured first by the static-page route (path `/` or ending in
`/index.html`); each action route receives the POST requests whose path
contains its substring and matches no earlier route; and 404 is returned
exactly when no route matches. -/
theorem router_precedence (m p : String) :
    (m ≠ "OPTIONS" → p ≠ "/" → strEndsWith p "/index.html" = false →
      strIncludes p "/api/feed" = true → route m p = Route.feed) ∧
    (m = "POST" → p ≠ "/" → strEndsWith p "/index.html" = false →
      strIncludes p "/api/feed" = false → strIncludes p "/api/tts" = false →
      strIncludes p "/api/archive" = true → route m p = Route.archive) ∧
    (m = "POST" → p ≠ "/" → strEndsWith p "/index.html" = false →
      strIncludes p "/api/feed" = false → strIncludes p "/api/tts" = false →
      strIncludes p "/api/archive" = false → strIncludes p "/api/delete" = true →
      route m p = Route.delete) ∧
    (m = "POST" → p ≠ "/" → strEndsWith p "/index.html" = false →
      strIncludes p "/api/feed" = false → strIncludes p "/api/tts" = false →
      strIncludes p "/api/archive" = false → strIncludes p "/api/delete" = false →
      strIncludes p "/api/later" = true → route m p = Route.later) ∧
    (route m p = Route.notFound →
      (m ≠ "OPTIONS" ∧ p ≠ "/" ∧ strEndsWith p "/index.html" = false ∧
        strIncludes p "/api/feed" = false ∧
        ¬(strIncludes p "/api/tts" = true ∧ m = "POST") ∧
        ¬(strIncludes p "/api/archive" = true ∧ m = "POST") ∧
        ¬(strIncludes p "/api/delete" = true ∧ m = "POST") ∧
        ¬(strIncludes p "/api/later" = true ∧ m = "POST") ∧
        p ≠ "/manifest.json")) ∧
    (m ≠ "OPTIONS" → p ≠ "/" → strEndsWith p "/index.html" = false →
      strIncludes p "/api/feed" = false →
      ¬(strIncludes p "/api/tts" = true ∧ m = "POST") →
      ¬(strIncludes p "/api/archive" = true ∧ m = "POST") →
      ¬(strIncludes p "/api/delete" = true ∧ m = "POST") →
      ¬(strIncludes p "/api/later" = true ∧ m = "POST") →
      p ≠ "/manifest.json" → route m p = Route.notFound) := by
  refine ⟨?_, ?_, ?_, ?_, ?_, ?_⟩
  · intro hm hp hend hfeed
    unfold route
    rw [if_neg (by simp [hm]), if_neg (by simp [hp, hend]), if_pos hfeed]
  · intro hm hp hend hfeed htts harch
    unfold route
    rw [if_neg (by subst hm; decide), if_neg (by simp [hp, hend]), if_neg (by simp [hfeed]),
      if_neg (by simp [htts]), if_pos (by simp [harch, hm])]
  · intro hm hp hend hfeed htts harch hdel
    unfold route
    rw [if_neg (by subst hm; decide), if_neg (by simp [hp, hend]), if_neg (by simp [hfeed]),
      if_neg (by simp [htts]), if_neg (by simp [harch]), if_pos (by simp [hdel, hm])]
  · intro hm hp hend hfeed htts harch hdel hlat
    unfold route
    rw [if_neg (by subst hm; decide), if_neg (by simp [hp, hend]), if_neg (by simp [hfeed]),
      if_neg (by simp [htts]), if_neg (by simp [harch]), if_neg (by simp [hdel]),
      if_pos (by simp [hlat, hm])]
  · intro h
    unfold route at h
    split_ifs at h with h1 h2 h3 h4 h5 h6 h7 h8
    any_goals injection h
    refine ⟨by simpa using h1, ?_, ?_, by simpa using h3,
      by simpa using h4, by simpa using h5, by simpa using h6, by simpa using h7,
      by simpa using h8⟩
    · intro hp
      exact h2 (by simp [hp])
    · by_cases hend : strEndsWith p "/index.html" = true
      · exact absurd (by simp [hend]) h2
      · simpa using hend
  · intro hm hp hend hfeed htts harch hdel hlat hman
    unfold route
    rw [if_neg (by simp [hm]), if_neg (by simp [hp, hend]), if_neg (by simp [hfeed]),
      if_neg (by simpa [Bool.and_eq_true, beq_iff_eq] using htts),
      if_neg (by simpa [Bool.and_eq_true, beq_iff_eq] using harch),
      if_neg (by simpa [Bool.and_eq_true, beq_iff_eq] using hdel),
      if_neg (by simpa [Bool.and_eq_true, beq_iff_eq] using hlat),
      if_neg (by simp [hman])]

/-- Witness for amended claim C10 at a concrete request. -/
theorem router_precedence_witness : route "GET" "/v1/api/feed" = Route.feed :=
  (router_precedence "GET" "/v1/api/feed").1 (by decide) (by decide) (by decide) (by decide)

/-! ## Claim C7 — idempotent delete -/

/-- Claim C7: an upstream 404 on delete is success, so a second delete for an
already-removed id also succeeds, while any other non-success status fails
with an error carrying that status. -/
theorem delete_idempotent_on_404 (s u : Nat) (kv kv2 : KV) (id id2 : String)
    (now now2 : Nat) :
    (deleteReadwiseDocument 404 = Except.ok true) ∧
    (respOk s = true → deleteReadwiseDocument s = Except.ok true) ∧
    (respOk s = false → s ≠ 404 →
      deleteReadwiseDocument s = Except.error ("Readwise delete error: " ++ toString s)) ∧
    (respOk u = true → (handleDelete u kv id now).1 = Except.ok ()) ∧
    ((handleDelete 404 kv2 id2 now2).1 = Except.ok ()) := by
  refine ⟨rfl, ?_, ?_, ?_, ?_⟩
  · intro hs
    unfold deleteReadwiseDocument
    rw [if_neg (by simp [hs])]
  · intro hs h404
    unfold deleteReadwiseDocument
    rw [if_pos (by simp [hs, h404])]
  · intro hu
    unfold handleDelete deleteReadwiseDocument
    rw [if_neg (by simp [hu])]
  · unfold handleDelete deleteReadwiseDocument
    rw [if_neg (by decide)]

/-- Witness for claim C7: a first delete against a 200 upstream and a second
against a 404 upstream both succeed, and a 500 fails carrying the status. -/
theorem delete_idempotent_on_404_witness :
    (handleDelete 200 [] "d1" 3).1 = Except.ok () ∧
    (handleDelete 404 (handleDelete 200 [] "d1" 3).2 "d1" 4).1 = Except.ok () ∧
    deleteReadwiseDocument 500 = Except.error ("Readwise delete error: " ++ toString 500) :=
  ⟨(delete_idempotent_on_404 500 200 [] [] "x" "y" 0 0).2.2.2.1 (by decide),
   (delete_idempotent_on_404 500 200 [] (handleDelete 200 [] "d1" 3).2 "x" "d1" 0 4).2.2.2.2,
   (delete_idempotent_on_404 500 200 [] [] "x" "y" 0 0).2.2.1 (by decide) (by decide)⟩

/-! ## Claim C4 — archive marker ordering and divergence -/

/-- Claim C4: `handleArchive` writes the `heard:` marker with a 30-day TTL
before issuing the upstream PATCH (witnessed by the event trace); an upstream
failure surfaces as the thrown error while the marker stays in the store. -/
theorem archive_marker_before_upstream (u : Nat) (kv : KV) (id : String) (now : Nat) :
    ((handleArchive u kv id now).2 =
      [Event.kvPutE ("heard:" ++ id) (toString now) (some (60 * 60 * 24 * 30)),
       Event.upstreamPatch id "archive"]) ∧
    (kvFind (handleArchive u kv id now).1.2 ("heard:" ++ id) =
      some ⟨"heard:" ++ id, toString now, some (60 * 60 * 24 * 30)⟩) ∧
    (respOk u = false →
      (handleArchive u kv id now).1.1 =
        Except.error ("Readwise update error: " ++ toString u)) ∧
    (respOk u = true → (handleArchive u kv id now).1.1 = Except.ok ()) := by
  unfold handleArchive updateReadwiseDocument
  by_cases hu : respOk u = true
  · rw [if_pos hu]
    exact ⟨rfl, kvFind_put_self kv _ _ _, fun hf => absurd hu (by simp [hf]), fun _ => rfl⟩
  · rw [if_neg hu]
    exact ⟨rfl, kvFind_put_self kv _ _ _, fun _ => rfl, fun ht => absurd ht hu⟩

/-- Witness for claim C4: after a 503 upstream failure the error is surfaced
and the heard marker is still present. -/
theorem archive_marker_before_upstream_witness :
    kvFind (handleArchive 503 [] "a9" 7).1.2 ("heard:" ++ "a9") =
      some ⟨"heard:" ++ "a9", toString 7, some (60 * 60 * 24 * 30)⟩ ∧
    (handleArchive 503 [] "a9" 7).1.1 =
      Except.error ("Readwise update error: " ++ toString 503) :=
  ⟨(archive_marker_before_upstream 503 [] "a9" 7).2.1,
   (archive_marker_before_upstream 503 [] "a9" 7).2.2.1 (by decide)⟩

/-! ## Claim C6 — defer wins over heard -/

/-- Claim C6: `handleLater` writes `later:<id>` with a 7-day TTL and deletes
`heard:<id>`, so afterwards the id is not in the heard set; and an article
holding both markers passes the feed filter, so it stays a candidate. -/
theorem later_overrides_heard (kv : KV) (id : String) (now : Nat) (a : Article)
    (pages : List (List Article)) (lf : String) :
    (kvFind (handleLater kv id now) ("later:" ++ id) =
      some ⟨"later:" ++ id, toString now, some (60 * 60 * 24 * 7)⟩) ∧
    (kvGet (handleLater kv id now) ("heard:" ++ id) = none) ∧
    ((getHeardIds (handleLater kv id now)).contains id = false) ∧
    (kvGet kv ("heard:" ++ a.id) ≠ none → kvGet kv ("later:" ++ a.id) ≠ none →
      (feedKeep (getHeardIds kv) (getLaterIds kv) a = true ∧
        (a ∈ fetchAllReadwiseArticles pages lf → a ∈ feedCandidates pages kv lf))) := by
  refine ⟨?_, ?_, ?_, ?_⟩
  · unfold handleLater
    rw [kvFind_delete_ne _ _ _ (later_ne_heard id id)]
    exact kvFind_put_self kv _ _ _
  · exact kvGet_delete_self _ _
  · by_contra hc
    rw [Bool.not_eq_false] at hc
    exact (getHeardIds_contains (handleLater kv id now) id).mp hc (kvGet_delete_self _ _)
  · intro _ hlat
    have hkeep : feedKeep (getHeardIds kv) (getLaterIds kv) a = true := by
      unfold feedKeep
      rw [(getLaterIds_contains kv a.id).mpr hlat]
      simp
    exact ⟨hkeep, fun hmem => List.mem_filter.mpr ⟨hmem, hkeep⟩⟩

/-- Concrete article and store for the C6 witness: id `z` holds both markers. -/
def artZ : Article := { id := "z", category := "article", location := "new" }

def kvBoth : KV := [⟨"heard:z", "1", none⟩, ⟨"later:z", "2", none⟩]

/-- Witness for claim C6: with both markers present, the feed filter keeps
the article. -/
theorem later_overrides_heard_witness :
    feedKeep (getHeardIds kvBoth) (getLaterIds kvBoth) artZ = true :=
  ((later_overrides_heard kvBoth "q" 0 artZ [] "all").2.2.2 (by decide) (by decide)).1

/-! ## Claim C2 — summary cache issues one summarizer call -/

/-- Amended claim C2: when the generated summary is non-empty, two sequential
`getCachedOrSummarize` calls for the same id issue exactly one summarizer
call — the first (on a miss) generates, stores under `summary:<id>` and
reports one call; the second returns the stored text verbatim with zero
calls.  (An empty generated summary defeats the `if (cached)` guard, see the
counterexample.) -/
theorem summary_cache_single_call (sum : Article → Except String String) (kv : KV)
    (a : Article) (s : String) (hmiss : kvGet kv ("summary:" ++ a.id) = none)
    (hsum : sum a = Except.ok s) (hne : s ≠ "") :
    getCachedOrSummarize sum kv a =
      (Except.ok s, kvPut kv ("summary:" ++ a.id) s (some SUMMARY_CACHE_TTL), 1) ∧
    getCachedOrSummarize sum (kvPut kv ("summary:" ++ a.id) s (some SUMMARY_CACHE_TTL)) a =
      (Except.ok s, kvPut kv ("summary:" ++ a.id) s (some SUMMARY_CACHE_TTL), 0) := by
  constructor
  · unfold getCachedOrSummarize
    rw [hmiss]
    unfold summarizeStep
    rw [hsum]
  · unfold getCachedOrSummarize
    rw [kvGet_put_self]
    exact if_neg hne

/-- Concrete summarizer oracles and article shared by cache theorems. -/
def artW : Article := { id := "a1", category := "article", location := "new" }

def sumHello : Article → Except String String := fun _ => Except.ok "hello"

def sumEmpty : Article → Except String String := fun _ => Except.ok ""

/-- Witness for amended claim C2: with summary text `hello`, the second call
is a verbatim cache hit issuing zero summarizer calls. -/
theorem summary_cache_single_call_witness :
    getCachedOrSummarize sumHello (getCachedOrSummarize sumHello [] artW).2.1 artW =
      (Except.ok "hello", kvPut [] ("summary:" ++ artW.id) "hello" (some SUMMARY_CACHE_TTL), 0) := by
  have h := summary_cache_single_call sumHello [] artW "hello" rfl rfl (by decide)
  rw [h.1]
  exact h.2

/-- Claim C2 is false as stated: when the summarizer returns the empty
string, the stored value is falsy for the `if (cached)` guard, so the second
sequential call invokes the summarizer again — two calls in total, not one. -/
theorem summary_cache_empty_counterexample :
    (getCachedOrSummarize sumEmpty [] artW).2.2 = 1 ∧
    (getCachedOrSummarize sumEmpty (getCachedOrSummarize sumEmpty [] artW).2.1 artW).2.2 = 1 ∧
    (getCachedOrSummarize sumEmpty [] artW).2.2 +
      (getCachedOrSummarize sumEmpty (getCachedOrSummarize sumEmpty [] artW).2.1 artW).2.2 ≠ 1 := by
  refine ⟨rfl, rfl, by decide⟩

/-! ## Claim C1 — candidate membership -/

theorem fetchLoop_single (lf : String) (docs : List Article) :
    fetchLoop lf [docs] 0 [] = docs.filter (readwiseKeep lf) := by
  rw [fetchLoop]
  split
  · simp
  · rw [fetchLoop]
    simp

/-- A document surviving the page filter is an article outside the archive,
for every requested scope. -/
theorem readwiseKeep_true {lf : String} {a : Article} (h : readwiseKeep lf a = true) :
    a.category = "article" ∧ a.location ≠ "archive" := by
  unfold readwiseKeep at h
  split_ifs at h with h1 h2 h3 h4 <;> simp_all

/-- In the default `all` scope the page filter is exactly the
category/location invariant. -/
theorem readwiseKeep_all (a : Article) :
    readwiseKeep "all" a = true ↔ (a.category = "article" ∧ a.location ≠ "archive") := by
  constructor
  · exact readwiseKeep_true
  · rintro ⟨hc, hl⟩
    unfold readwiseKeep
    rw [if_neg (by simp [hc]), if_neg hl, if_neg (by decide), if_neg (by decide)]

/-- The marker filter in claim terms. -/
theorem feedKeep_iff (heard later : List String) (a : Article) :
    feedKeep heard later a = true ↔
      (heard.contains a.id = false ∨ later.contains a.id = true) := by
  unfold feedKeep
  cases h1 : heard.contains a.id <;> cases h2 : later.contains a.id <;> simp

theorem mem_feedCandidates_single (docs : List Article) (kv : KV) (lf : String) (a : Article) :
    a ∈ feedCandidates [docs] kv lf ↔
      (a ∈ docs ∧ readwiseKeep lf a = true ∧
        feedKeep (getHeardIds kv) (getLaterIds kv) a = true) := by
  unfold feedCandidates fetchAllReadwiseArticles
  rw [List.mem_filter, List.mem_insertionSort, fetchLoop_single, List.mem_filter]
  tauto

/-- Claim C1: a fetched article is a feed-assembly candidate only if it is an
unarchived article that is unheard or deferred; in the default `all` scope,
candidacy is exactly equivalent to that predicate. -/
theorem feed_candidate_iff (docs : List Article) (kv : KV) (a : Article) :
    (∀ lf, a ∈ feedCandidates [docs] kv lf →
      (a.category = "article" ∧ a.location ≠ "archive" ∧
        ((getHeardIds kv).contains a.id = false ∨ (getLaterIds kv).contains a.id = true))) ∧
    (a ∈ feedCandidates [docs] kv "all" ↔
      (a ∈ docs ∧ a.category = "article" ∧ a.location ≠ "archive" ∧
        ((getHeardIds kv).contains a.id = false ∨ (getLaterIds kv).contains a.id = true))) := by
  constructor
  · intro lf hmem
    have h := (mem_feedCandidates_single docs kv lf a).mp hmem
    have hk := readwiseKeep_true h.2.1
    exact ⟨hk.1, hk.2, (feedKeep_iff _ _ _).mp h.2.2⟩
  · rw [mem_feedCandidates_single, readwiseKeep_all, feedKeep_iff]
    tauto

/-- Witness for claim C1 at a concrete fetched article. -/
theorem feed_candidate_iff_witness :
    artZ.category = "article" ∧ artZ.location ≠ "archive" ∧
      ((getHeardIds ([] : KV)).contains artZ.id = false ∨
        (getLaterIds ([] : KV)).contains artZ.id = true) :=
  (feed_candidate_iff [artZ] [] artZ).1 "all" (by decide)

/-! ## Claim C9 — output ordering -/

theorem feedLoop_ids_sublist (sum : Article → Except String String) (later : List String) :
    ∀ (l : List Article) (kv : KV) (acc : List FeedItem),
      ((feedLoop sum later l kv acc).1.map FeedItem.id).Sublist
        (acc.map FeedItem.id ++ l.map Article.id) := by
  intro l
  induction l with
  | nil =>
    intro kv acc
    simp only [feedLoop, List.map_nil, List.append_nil]
    exact List.Sublist.refl _
  | cons a rest ih =>
    intro kv acc
    rcases hg : getCachedOrSummarize sum kv a with ⟨res, kv1, n⟩
    cases res with
    | ok s =>
      rw [show feedLoop sum later (a :: rest) kv acc =
          feedLoop sum later rest
            (if later.contains a.id then kvDelete kv1 ("later:" ++ a.id) else kv1)
            (acc ++ [mkFeedItem a s]) from by rw [feedLoop, hg]]
      have h := ih (if later.contains a.id then kvDelete kv1 ("later:" ++ a.id) else kv1)
        (acc ++ [mkFeedItem a s])
      simpa using h
    | error e =>
      rw [show feedLoop sum later (a :: rest) kv acc = feedLoop sum later rest kv1 acc from by
        rw [feedLoop, hg]]
      refine (ih kv1 acc).trans ?_
      exact List.Sublist.append_left (List.sublist_cons_self a.id (rest.map Article.id)) _

/-- Claim C9: within one pass the fetched candidate list is sorted by saved
timestamp descending as a final step (for every pagination outcome), and the
response items' ids form an order-preserving sublist of that sorted list —
the marker filter, the cap and the summarization loop drop elements but never
reorder. -/
theorem feed_output_sorted_desc (sum : Article → Except String String)
    (pages : List (List Article)) (kv : KV) (loc : Option String) :
    List.Sorted bySavedDesc (fetchAllReadwiseArticles pages (locFilterOf loc)) ∧
    ((handleFeed sum pages kv loc).1.articles.map FeedItem.id).Sublist
      ((fetchAllReadwiseArticles pages (locFilterOf loc)).map Article.id) := by
  constructor
  · exact List.sorted_insertionSort bySavedDesc _
  · have h1 := feedLoop_ids_sublist sum (getLaterIds kv)
      ((feedCandidates pages kv (locFilterOf loc)).take MAX_ARTICLES) kv []
    simp only [List.map_nil, List.nil_append] at h1
    exact List.Sublist.trans h1
      (((List.take_sublist _ _).trans (List.filter_sublist _)).map Article.id)

/-! ## Claim C3 — later markers are consumed exactly on inclusion -/

/-- The KV returned by the summary cache is either unchanged or extended by a
`summary:` write for the article's own id. -/
theorem getCached_kv_cases (sum : Article → Except String String) (kv : KV) (a : Article) :
    (getCachedOrSummarize sum kv a).2.1 = kv ∨
      ∃ s, (getCachedOrSummarize sum kv a).2.1 =
        kvPut kv ("summary:" ++ a.id) s (some SUMMARY_CACHE_TTL) := by
  unfold getCachedOrSummarize summarizeStep
  cases hc : kvGet kv ("summary:" ++ a.id) with
  | none =>
    cases hs : sum a with
    | error e => exact Or.inl rfl
    | ok s => exact Or.inr ⟨s, rfl⟩
  | some c =>
    by_cases hce : c = ""
    · subst hce
      cases hs : sum a with
      | error e => exact Or.inl rfl
      | ok s => exact Or.inr ⟨s, rfl⟩
    · refine Or.inl ?_
      dsimp only
      rw [if_neg hce]

/-- The summary cache never touches keys outside the `summary:` namespace. -/
theorem getCached_kv_preserves (sum : Article → Except String String) (kv : KV)
    (a : Article) (k : String) (hk : ∀ x : String, k ≠ "summary:" ++ x) :
    kvGet (getCachedOrSummarize sum kv a).2.1 k = kvGet kv k := by
  rcases getCached_kv_cases sum kv a with h | ⟨s, h⟩
  · rw [h]
  · rw [h, kvGet_put_ne _ _ _ _ _ (hk a.id)]

/-- On a summarizer failure the cache leaves the store untouched. -/
theorem getCached_error_kv (sum : Article → Except String String) (kv : KV) (a : Article)
    (e : String) (h : (getCachedOrSummarize sum kv a).1 = Except.error e) :
    (getCachedOrSummarize sum kv a).2.1 = kv := by
  unfold getCachedOrSummarize summarizeStep at h ⊢
  cases hc : kvGet kv ("summary:" ++ a.id) with
  | none =>
    rw [hc] at h
    cases hs : sum a with
    | error e2 => rfl
    | ok s =>
      rw [hs] at h
      exact absurd h (by simp)
  | some c =>
    rw [hc] at h
    by_cases hce : c = ""
    · subst hce
      cases hs : sum a with
      | error e2 => rfl
      | ok s =>
        rw [hs] at h
        exact absurd h (by simp)
    · dsimp only at h
      rw [if_neg hce] at h
      exact absurd h (by simp)

/-- The feed loop only writes `summary:` keys and deletes `later:` keys;
every key outside those namespaces is untouched. -/
theorem feedLoop_preserves (sum : Article → Except String String) (later : List String) :
    ∀ (l : List Article) (kv : KV) (acc : List FeedItem) (k : String),
      (∀ x : String, k ≠ "summary:" ++ x) → (∀ x : String, k ≠ "later:" ++ x) →
      kvGet (feedLoop sum later l kv acc).2 k = kvGet kv k := by
  intro l
  induction l with
  | nil => intro kv acc k _ _; rfl
  | cons a rest ih =>
    intro kv acc k hks hkl
    rcases hg : getCachedOrSummarize sum kv a with ⟨res, kv1, n⟩
    have hkv1 : kvGet kv1 k = kvGet kv k := by
      have h := getCached_kv_preserves sum kv a k hks
      rw [hg] at h
      exact h
    cases res with
    | ok s =>
      rw [show feedLoop sum later (a :: rest) kv acc =
          feedLoop sum later rest
            (if later.contains a.id then kvDelete kv1 ("later:" ++ a.id) else kv1)
            (acc ++ [mkFeedItem a s]) from by rw [feedLoop, hg]]
      rw [ih _ _ k hks hkl]
      by_cases hl : later.contains a.id = true
      · rw [if_pos hl, kvGet_delete_ne _ _ _ (hkl a.id), hkv1]
      · rw [if_neg hl, hkv1]
    | error e =>
      rw [show feedLoop sum later (a :: rest) kv acc = feedLoop sum later rest kv1 acc from by
        rw [feedLoop, hg]]
      rw [ih _ _ k hks hkl, hkv1]

/-- Accumulated items are just prepended: the loop's new output and final
store do not depend on `acc`. -/
theorem feedLoop_acc (sum : Article → Except String String) (later : List String) :
    ∀ (l : List Article) (kv : KV) (acc : List FeedItem),
      feedLoop sum later l kv acc =
        (acc ++ (feedLoop sum later l kv []).1, (feedLoop sum later l kv []).2) := by
  intro l
  induction l with
  | nil => intro kv acc; simp [feedLoop]
  | cons a rest ih =>
    intro kv acc
    rcases hg : getCachedOrSummarize sum kv a with ⟨res, kv1, n⟩
    cases res with
    | ok s =>
      rw [show feedLoop sum later (a :: rest) kv acc =
          feedLoop sum later rest
            (if later.contains a.id then kvDelete kv1 ("later:" ++ a.id) else kv1)
            (acc ++ [mkFeedItem a s]) from by rw [feedLoop, hg],
        show feedLoop sum later (a :: rest) kv [] =
          feedLoop sum later rest
            (if later.contains a.id then kvDelete kv1 ("later:" ++ a.id) else kv1)
            ([] ++ [mkFeedItem a s]) from by rw [feedLoop, hg]]
      rw [ih _ (acc ++ [mkFeedItem a s]), ih _ ([] ++ [mkFeedItem a s])]
      simp
    | error e =>
      rw [show feedLoop sum later (a :: rest) kv acc = feedLoop sum later rest kv1 acc from by
          rw [feedLoop, hg],
        show feedLoop sum later (a :: rest) kv [] = feedLoop sum later rest kv1 [] from by
          rw [feedLoop, hg]]
      exact ih _ acc

/-- Complete characterization of the `later:` namespace after the feed loop:
the marker for `id` is gone exactly when it was already absent, or when `id`
was in the later snapshot and an item with that id made it into the output. -/
theorem feedLoop_later_char (sum : Article → Except String String) (later : List String) :
    ∀ (l : List Article) (kv : KV) (id : String),
      kvGet (feedLoop sum later l kv []).2 ("later:" ++ id) =
        if later.contains id = true ∧ id ∈ (feedLoop sum later l kv []).1.map FeedItem.id
        then none else kvGet kv ("later:" ++ id) := by
  intro l
  induction l with
  | nil =>
    intro kv id
    rw [if_neg]
    · rfl
    · rintro ⟨-, hm⟩
      simp [feedLoop] at hm
  | cons a rest ih =>
    intro kv id
    rcases hg : getCachedOrSummarize sum kv a with ⟨res, kv1, n⟩
    cases res with
    | error e =>
      have hkv1 : kv1 = kv := by
        have h := getCached_error_kv sum kv a e (by rw [hg])
        rw [hg] at h
        exact h
      rw [show feedLoop sum later (a :: rest) kv [] = feedLoop sum later rest kv1 [] from by
        rw [feedLoop, hg]]
      rw [ih kv1 id, hkv1]
    | ok s =>
      have hkv1 : kvGet kv1 ("later:" ++ id) = kvGet kv ("later:" ++ id) := by
        have h := getCached_kv_preserves sum kv a ("later:" ++ id)
          (fun x => (summary_ne_later x id).symm)
        rw [hg] at h
        exact h
      rw [show feedLoop sum later (a :: rest) kv [] =
          feedLoop sum later rest
            (if later.contains a.id then kvDelete kv1 ("later:" ++ a.id) else kv1)
            ([] ++ [mkFeedItem a s]) from by rw [feedLoop, hg]]
      rw [feedLoop_acc sum later rest _ ([] ++ [mkFeedItem a s])]
      dsimp only
      rw [ih _ id]
      simp only [List.nil_append, List.singleton_append, List.map_cons, List.mem_cons, mkFeedItem]
      by_cases hid : id = a.id
      · subst hid
        by_cases hl : later.contains a.id = true
        · rw [if_pos hl, kvGet_delete_self, ite_self,
            if_pos ⟨hl, Or.inl rfl⟩]
        · rw [if_neg hl, if_neg (fun hc => hl hc.1), if_neg (fun hc => hl hc.1), hkv1]
      · have hkey : ("later:" ++ id) ≠ ("later:" ++ a.id) :=
          fun h => hid (str_append_left_cancel h)
        have hkv2 : kvGet (if later.contains a.id then kvDelete kv1 ("later:" ++ a.id) else kv1)
            ("later:" ++ id) = kvGet kv ("later:" ++ id) := by
          by_cases hl : later.contains a.id = true
          · rw [if_pos hl, kvGet_delete_ne _ _ _ hkey, hkv1]
          · rw [if_neg hl, hkv1]
        rw [hkv2]
        have hiff : (later.contains id = true ∧
              id ∈ (feedLoop sum later rest
                (if later.contains a.id then kvDelete kv1 ("later:" ++ a.id) else kv1)
                []).1.map FeedItem.id) ↔
            (later.contains id = true ∧
              (id = a.id ∨ id ∈ (feedLoop sum later rest
                (if later.contains a.id then kvDelete kv1 ("later:" ++ a.id) else kv1)
                []).1.map FeedItem.id)) := by
          apply and_congr_right
          intro _
          simp [hid]
        rw [if_congr hiff rfl rfl]

/-- Claim C3: during one feed-assembly pass the `heard:` namespace is
untouched, no `later:` marker is ever created, and for an id that held a
`later:` marker the marker is deleted if and only if that id appears in the
response output — articles filtered out, dropped by the cap, or skipped
after a summarizer failure keep their markers. -/
theorem feed_later_marker_consumed (sum : Article → Except String String)
    (pages : List (List Article)) (kv : KV) (loc : Option String) (id : String) :
    (kvGet (handleFeed sum pages kv loc).2 ("heard:" ++ id) = kvGet kv ("heard:" ++ id)) ∧
    (kvGet kv ("later:" ++ id) = none →
      kvGet (handleFeed sum pages kv loc).2 ("later:" ++ id) = none) ∧
    (kvGet kv ("later:" ++ id) ≠ none →
      (kvGet (handleFeed sum pages kv loc).2 ("later:" ++ id) = none ↔
        id ∈ (handleFeed sum pages kv loc).1.articles.map FeedItem.id)) := by
  have h2 : (handleFeed sum pages kv loc).2 =
      (feedLoop sum (getLaterIds kv)
        ((feedCandidates pages kv (locFilterOf loc)).take MAX_ARTICLES) kv []).2 := rfl
  have h1 : (handleFeed sum pages kv loc).1.articles =
      (feedLoop sum (getLaterIds kv)
        ((feedCandidates pages kv (locFilterOf loc)).take MAX_ARTICLES) kv []).1 := rfl
  rw [h2, h1]
  refine ⟨?_, ?_, ?_⟩
  · exact feedLoop_preserves sum (getLaterIds kv) _ kv [] ("heard:" ++ id)
      (fun x => (summary_ne_heard x id).symm) (fun x => (later_ne_heard x id).symm)
  · intro hnone
    rw [feedLoop_later_char, hnone, ite_self]
  · intro hsome
    rw [feedLoop_later_char]
    have hcont : (getLaterIds kv).contains id = true := (getLaterIds_contains kv id).mpr hsome
    by_cases hm : id ∈ (feedLoop sum (getLaterIds kv)
        ((feedCandidates pages kv (locFilterOf loc)).take MAX_ARTICLES) kv []).1.map FeedItem.id
    · rw [if_pos ⟨hcont, hm⟩]
      simp [hm]
    · rw [if_neg (fun hc => hm hc.2)]
      simp [hm, hsome]

/-- Store holding one `later:` marker, for the C3 witness. -/
def kvOneLater : KV := [⟨"later:z", "2", none⟩]

/-- Witness for claim C3: the deferred article `z` is served (summaries
succeed), and its marker is deleted exactly because it is in the output. -/
theorem feed_later_marker_consumed_witness :
    kvGet (handleFeed sumHello [[artZ]] kvOneLater none).2 ("later:" ++ "z") = none ↔
      "z" ∈ (handleFeed sumHello [[artZ]] kvOneLater none).1.articles.map FeedItem.id :=
  (feed_later_marker_consumed sumHello [[artZ]] kvOneLater none "z").2.2 (by decide)

/-! ## Claim C5 — per-article summary failures degrade gracefully -/

/-- Claim C5: a failure obtaining one article's summary (summarizer error and
nothing cached) removes exactly that article from the loop — the store and
the remaining processing are as if it were absent; and when the only
candidate fails this way, the feed response still has status 200 with an
empty articles list. -/
theorem feed_skips_failed_summary :
    (∀ (sum : Article → Except String String) (later : List String) (a : Article)
        (l2 : List Article) (kv : KV) (acc : List FeedItem) (e : String),
      sum a = Except.error e →
      (kvGet kv ("summary:" ++ a.id) = none ∨ kvGet kv ("summary:" ++ a.id) = some "") →
      feedLoop sum later (a :: l2) kv acc = feedLoop sum later l2 kv acc) ∧
    (∀ (sum : Article → Except String String) (pages : List (List Article)) (kv : KV)
        (loc : Option String) (a : Article) (e : String),
      feedCandidates pages kv (locFilterOf loc) = [a] →
      sum a = Except.error e →
      kvGet kv ("summary:" ++ a.id) = none →
      (handleFeed sum pages kv loc).1.status = 200 ∧
        (handleFeed sum pages kv loc).1.articles = []) := by
  have hskip : ∀ (sum : Article → Except String String) (later : List String) (a : Article)
      (l2 : List Article) (kv : KV) (acc : List FeedItem) (e : String),
      sum a = Except.error e →
      (kvGet kv ("summary:" ++ a.id) = none ∨ kvGet kv ("summary:" ++ a.id) = some "") →
      feedLoop sum later (a :: l2) kv acc = feedLoop sum later l2 kv acc := by
    intro sum later a l2 kv acc e hfail hcache
    have hg : getCachedOrSummarize sum kv a = (Except.error e, kv, 1) := by
      unfold getCachedOrSummarize summarizeStep
      rcases hcache with h | h
      · rw [h, hfail]
      · rw [h]
        dsimp only
        rw [if_pos rfl, hfail]
    rw [feedLoop, hg]
  refine ⟨hskip, ?_⟩
  intro sum pages kv loc a e hcand hfail hcache
  refine ⟨rfl, ?_⟩
  have harts : (handleFeed sum pages kv loc).1.articles =
      (feedLoop sum (getLaterIds kv)
        ((feedCandidates pages kv (locFilterOf loc)).take MAX_ARTICLES) kv []).1 := rfl
  rw [harts, hcand]
  rw [show ([a] : List Article).take MAX_ARTICLES = [a] from rfl]
  rw [hskip sum (getLaterIds kv) a [] kv [] e hfail (Or.inl hcache)]
  rfl

/-- A summarizer oracle that always rate-limits, for the C5 witness. -/
def sum429 : Article → Except String String :=
  fun _ => Except.error "Claude API error: 429 - rate limited"

/-- Witness for claim C5: the only candidate's summarizer call fails with a
429, yet the feed response is a 200 with no articles. -/
theorem feed_skips_failed_summary_witness :
    (handleFeed sum429 [[artZ]] [] none).1.status = 200 ∧
    (handleFeed sum429 [[artZ]] [] none).1.articles = [] :=
  feed_skips_failed_summary.2 sum429 [[artZ]] [] none artZ
    "Claude API error: 429 - rate limited" (by decide) rfl rfl
